import Mathlib

/-!
Shallow embedding of the emby-notify repository (two Python scripts:
`scripts/emby_notify.py`, the main variant, and
`.github/workflows/emby_notify.py`, the workflow variant) together with
proofs settling the frozen claims about its specification.

Modelling conventions:
* Python `datetime` values are modelled as integers on an abstract
  timeline; `datetime.fromisoformat` is an abstract parameter
  `fromiso : String → Option Int` (`none` models a raised exception).
  The wrapper logic of `parse_emby_date` (strip trailing `Z`, truncate
  the fractional part to at most six digits) is embedded faithfully.
* A raised Python exception is `Except.error`; a dictionary key that may
  be absent is an `Option` field.
* Python `dict`s preserve key insertion order, so maps are association
  lists in insertion order; Python `set`s are duplicate-free lists whose
  order is never observed (every read sorts or tests membership).
* Network enrichment calls (TMDb, Trakt, OMDb) swallow all their own
  exceptions and only contribute caption text that no claim inspects, so
  emitted messages are modelled structurally by `Notice`/`WSend`, which
  record exactly the data the claims talk about.
-/

/-- One element of a `VideoStreams` list: only the `Height` key is read
(`vs[0].get('Height')`). -/
structure VideoStream where
  Height : Option Int
deriving DecidableEq

/-- One element of a `MediaSources` list: only `VideoStreams` is read,
with `[]` as default (`.get('VideoStreams', [])`). -/
structure MediaSourceRec where
  VideoStreams : Option (List VideoStream)
deriving DecidableEq

/-- A raw Emby catalog record as read by `scripts/emby_notify.py`:
each field is the corresponding JSON key, `Option` for possibly absent. -/
structure EmbyItem where
  «Type» : Option String
  Name : Option String
  DateCreated : Option String
  Path : Option String
  MediaSources : Option (List MediaSourceRec)
  SeriesName : Option String
  ParentIndexNumber : Option Int
  IndexNumber : Option Int
deriving DecidableEq

/-- `parse_emby_date`: strip trailing `Z` characters, truncate a
fractional part to its leading (at most six) digits — no leading digit
models the `AttributeError` of `re.match(...).group` — and hand the
result to the abstract `datetime.fromisoformat`. -/
def parse_emby_date (fromiso : String → Option Int) (dtStr : String) : Option Int :=
  let s := (dtStr.data.reverse.dropWhile (· == 'Z')).reverse
  if s.contains '.' then
    let mainPart := s.takeWhile (· ≠ '.')
    let frac := (s.dropWhile (· ≠ '.')).drop 1
    let ds := (frac.takeWhile (·.isDigit)).take 6
    if ds.isEmpty then none
    else fromiso (String.mk (mainPart ++ '.' :: ds))
  else fromiso (String.mk s)

/-- Does the char list start with exactly `k` digits followed by `p`?
If so return that token (`re` group `\d{k}p`). -/
def digitsThenP (k : Nat) (cs : List Char) : Option String :=
  let ds := cs.take k
  if ds.length = k && ds.all (·.isDigit) && ((cs.drop k).take 1 == ['p'])
  then some ((ds ++ ['p']).asString)
  else none

/-- Leftmost-greedy search for `re.search(r'(\d{3,4}p)', path)`:
at each position try four digits + `p` first, then three. -/
def resSearchAux : List Char → Option String
  | [] => none
  | c :: rest =>
    match digitsThenP 4 (c :: rest) with
    | some s => some s
    | none =>
      match digitsThenP 3 (c :: rest) with
      | some s => some s
      | none => resSearchAux rest

def resSearch (path : String) : Option String :=
  resSearchAux path.toList

/-- `f"{vs[0].get('Height')}p"` — an absent `Height` prints Python's
`None`, giving the string `"Nonep"`. -/
def heightLabel (h : Option Int) : String :=
  (match h with
   | some n => toString n
   | none => "None") ++ "p"

/-- `setdefault(k, set()).add(v)` on an insertion-ordered dict of sets:
first occurrence of the key keeps its position, the set never holds
duplicates. -/
def dictSetAdd {κ α : Type} [DecidableEq κ] [DecidableEq α] :
    List (κ × List α) → κ → α → List (κ × List α)
  | [], k, v => [(k, [v])]
  | (k', s) :: rest, k, v =>
    if k' = k then (k', if v ∈ s then s else s ++ [v]) :: rest
    else (k', s) :: dictSetAdd rest k v

/-- Dict lookup returning the first entry with the key (Python dicts
have unique keys, which `dictSetAdd` preserves). -/
def mapFind {κ ν : Type} [DecidableEq κ] : List (κ × ν) → κ → Option ν
  | [], _ => none
  | (k, v) :: rest, key => if k = key then some v else mapFind rest key

/-- Movie map of `build_movie_map`: title (possibly `None`) to the set
of `(resolution, datetime)` pairs. -/
abbrev MovieMap := List (Option String × List (String × Int))

/-- Series map of `build_series_map`: series name to the set of
`(season, episode, datetime)` triples. -/
abbrev SeriesMap := List (String × List (Int × Int × Int))

/-- One iteration of the `build_movie_map` loop: `ok none` means the
item is skipped (`continue`), `error` models the uncaught `IndexError`
of `i.get('MediaSources', [{}])[0]` on an explicitly empty list. -/
def movieEntry (fromiso : String → Option Int) (i : EmbyItem) :
    Except Unit (Option (Option String × String × Int)) :=
  if i.«Type» ≠ some "Movie" then .ok none
  else
    match i.DateCreated with
    | none => .ok none
    | some ds =>
      match parse_emby_date fromiso ds with
      | none => .ok none
      | some dt =>
        let path := i.Path.getD ""
        match resSearch path with
        | some res => .ok (some (i.Name, res, dt))
        | none =>
          match i.MediaSources with
          | none => .ok (some (i.Name, "Unknown", dt))
          | some [] => .error ()
          | some (ms :: _) =>
            match ms.VideoStreams.getD [] with
            | [] => .ok (some (i.Name, "Unknown", dt))
            | v :: _ => .ok (some (i.Name, heightLabel v.Height, dt))

def buildMovieMapAux (fromiso : String → Option Int) :
    List EmbyItem → MovieMap → Except Unit MovieMap
  | [], m => .ok m
  | i :: rest, m =>
    match movieEntry fromiso i with
    | .error e => .error e
    | .ok none => buildMovieMapAux fromiso rest m
    | .ok (some (t, r, d)) => buildMovieMapAux fromiso rest (dictSetAdd m t (r, d))

/-- `build_movie_map`. -/
def build_movie_map (fromiso : String → Option Int) (items : List EmbyItem) :
    Except Unit MovieMap :=
  buildMovieMapAux fromiso items []

/-- One iteration of the `build_series_map` loop; `none` = `continue`. -/
def seriesEntry (fromiso : String → Option Int) (i : EmbyItem) :
    Option (String × Int × Int × Int) :=
  if i.«Type» ≠ some "Episode" then none
  else
    match i.DateCreated with
    | none => none
    | some ds =>
      match parse_emby_date fromiso ds with
      | none => none
      | some dt =>
        match i.SeriesName, i.ParentIndexNumber, i.IndexNumber with
        | some t, some s, some e => some (t, s, e, dt)
        | _, _, _ => none

def buildSeriesMapAux (fromiso : String → Option Int) :
    List EmbyItem → SeriesMap → SeriesMap
  | [], m => m
  | i :: rest, m =>
    match seriesEntry fromiso i with
    | none => buildSeriesMapAux fromiso rest m
    | some (t, s, e, d) => buildSeriesMapAux fromiso rest (dictSetAdd m t (s, e, d))

/-- `build_series_map`. -/
def build_series_map (fromiso : String → Option Int) (items : List EmbyItem) :
    SeriesMap :=
  buildSeriesMapAux fromiso items []

/-- Python's string `<`: lexicographic comparison of code points
(`Char.val`), shorter prefix first. -/
def pyStrLtB : List Char → List Char → Bool
  | [], [] => false
  | [], _ :: _ => true
  | _ :: _, [] => false
  | a :: as, b :: bs =>
    if a < b then true else if b < a then false else pyStrLtB as bs

/-- Python's string `≤` as a relation for sorting: `a ≤ b ⟺ ¬ (b < a)`. -/
def pyLe (a b : String) : Prop := pyStrLtB b.data a.data = false

instance pyLe.decRel : DecidableRel pyLe := fun _ _ =>
  inferInstanceAs (Decidable (_ = _))

/-- Lexicographic order on `(season, episode)` pairs — how Python's
`sorted` compares tuples of ints. -/
def epLe (a b : Int × Int) : Prop :=
  a.1 < b.1 ∨ (a.1 = b.1 ∧ a.2 ≤ b.2)

instance epLe.decRel : DecidableRel epLe := fun _ _ =>
  inferInstanceAs (Decidable (_ ∨ _ ∧ _))

instance epLe.isTotal : IsTotal (Int × Int) epLe where
  total a b := by
    unfold epLe
    rcases lt_trichotomy a.1 b.1 with h | h | h
    · exact Or.inl (Or.inl h)
    · rcases le_total a.2 b.2 with h2 | h2
      · exact Or.inl (Or.inr ⟨h, h2⟩)
      · exact Or.inr (Or.inr ⟨h.symm, h2⟩)
    · exact Or.inr (Or.inl h)

instance epLe.isTrans : IsTrans (Int × Int) epLe where
  trans a b c hab hbc := by
    unfold epLe at *
    rcases hab with h1 | ⟨h1, h1'⟩ <;> rcases hbc with h2 | ⟨h2, h2'⟩
    · exact Or.inl (h1.trans h2)
    · exact Or.inl (h2 ▸ h1)
    · exact Or.inl (h1 ▸ h2)
    · exact Or.inr ⟨h1.trans h2, h1'.trans h2'⟩

/-- Python `sorted` on a set of resolution-label strings: the unique
ordering by lexicographic (code-point) string comparison. -/
def sortStr (l : List String) : List String :=
  l.insertionSort pyLe

/-- Python `sorted` on a set of `(season, episode)` int pairs. -/
def sortEps (l : List (Int × Int)) : List (Int × Int) :=
  l.insertionSort epLe

/-- One message handed to `send_telegram`, keeping the data the claims
inspect: the kind of message, the title, and the exact ordered list of
resolutions / episodes interpolated into the text.  For
`updSeries` the code renders `added` grouped by season with both
seasons and episodes ascending, which lists the pairs in exactly
lexicographic order, so the sorted pair list is stored. -/
inductive Notice where
  | newMovie (title : Option String) (resolutions : List String)
  | updMovie (title : Option String) (resolutions : List String)
  | newSeries (title : String) (episodes : List (Int × Int))
  | updSeries (title : String) (episodes : List (Int × Int))
deriving DecidableEq

/-- One iteration of the movie-notification loop of `process`
(lines 336–362): `none` when no message is sent for this title. -/
def movieNotice1 (cutoff : Int) (oldM : MovieMap) :
    Option String × List (String × Int) → Option Notice :=
  fun (title, infos) =>
    let recent := ((infos.filter (fun p => cutoff ≤ p.2)).map Prod.fst).dedup
    if recent.isEmpty then none
    else
      let old_res := (((mapFind oldM title).getD []).map Prod.fst).dedup
      if (mapFind oldM title).isSome then
        let added := recent.filter (fun r => decide (r ∉ old_res))
        if added.isEmpty then none
        else some (.updMovie title (sortStr added))
      else some (.newMovie title (sortStr recent))

/-- The movie-notification loop: Python dict iteration is insertion
order, i.e. the list order of the map. -/
def movieNotices (cutoff : Int) (oldM newM : MovieMap) : List Notice :=
  newM.filterMap (movieNotice1 cutoff oldM)

/-- One iteration of the series-notification loop of `process`
(lines 364–403). -/
def seriesNotice1 (cutoff : Int) (oldS : SeriesMap) :
    String × List (Int × Int × Int) → Option Notice :=
  fun (title, infos) =>
    let recent_eps : List (Int × Int) :=
      ((infos.filter (fun p => cutoff ≤ p.2.2)).map (fun p => (p.1, p.2.1))).dedup
    if recent_eps.isEmpty then none
    else
      let old_eps : List (Int × Int) :=
        (((mapFind oldS title).getD []).map (fun p => (p.1, p.2.1))).dedup
      if (mapFind oldS title).isSome then
        let added := recent_eps.filter (fun e => decide (e ∉ old_eps))
        if added.isEmpty then none
        else some (.updSeries title (sortEps added))
      else some (.newSeries title (sortEps recent_eps))

def seriesNotices (cutoff : Int) (oldS newS : SeriesMap) : List Notice :=
  newS.filterMap (seriesNotice1 cutoff oldS)

/-- State of the persisted cache file for the scripts variant:
`present blank parsed` is an existing file, `blank` when its stripped
content is empty, `parsed` the outcome of `json.loads`
(`none` = `JSONDecodeError`). -/
inductive FileState where
  | missing
  | present (blank : Bool) (parsed : Option (List EmbyItem))
deriving DecidableEq

/-- `load_cache` of the scripts variant: total — every failure mode
yields the empty list. -/
def load_cache : FileState → List EmbyItem
  | .missing => []
  | .present blank parsed => if blank then [] else parsed.getD []

/-- `timedelta(days=1)` on the abstract integer timeline (seconds). -/
def oneDay : Int := 86400

/-- Observable outcome of one `process()` invocation of the scripts
variant.  `deliveries` records the success of each Telegram call in
order (`send_telegram` swallows failures, so they influence nothing);
`savedCache` is the document written by `save_cache`, `none` when the
run never reaches it; `exitCode` is the process exit status
(an uncaught exception exits 1, a plain return exits 0). -/
structure RunResult where
  notices : List Notice
  deliveries : List Bool
  savedCache : Option (List EmbyItem)
  exitCode : Nat
deriving DecidableEq

/-- `process()` of `scripts/emby_notify.py`.  Inputs: the cache-file
state, the outcome of the Emby catalog fetch (`error` = network or
HTTP exception), the current time `now`, and the per-call delivery
oracle `deliverOk`.  The four maps are built before any message is
sent; a fetch failure is caught and merely returns (exit 0); an
`IndexError` while building the movie maps propagates (exit 1);
`save_cache(all_items)` always stores the entire fetched catalog. -/
def process (fromiso : String → Option Int) (fs : FileState)
    (fetched : Except Unit (List EmbyItem)) (now : Int)
    (deliverOk : Nat → Bool) : RunResult :=
  let old_items := load_cache fs
  match fetched with
  | .error _ => ⟨[], [], none, 0⟩
  | .ok all_items =>
    let cutoff := now - oneDay
    match build_movie_map fromiso old_items, build_movie_map fromiso all_items with
    | .ok oldM, .ok newM =>
      let oldS := build_series_map fromiso old_items
      let newS := build_series_map fromiso all_items
      let ns := movieNotices cutoff oldM newM ++ seriesNotices cutoff oldS newS
      ⟨ns, (List.range ns.length).map deliverOk, some all_items, 0⟩
    | _, _ => ⟨[], [], none, 1⟩

/-- One element of `MediaStreams` in the workflow variant: the keys
read are `Type`, `Channels`, `Width`, `Height`. -/
structure WStream where
  «Type» : Option String
  Channels : Option Int
  Width : Option Int
  Height : Option Int
deriving DecidableEq

/-- A raw catalog record as read by the workflow variant `main()`. -/
structure WItem where
  Id : String
  Name : Option String
  «Type» : Option String
  MediaStreams : List WStream
  ParentIndexNumber : Option Int
  IndexNumber : Option Int
deriving DecidableEq

/-- The workflow variant's persisted cache `{"items": {id: {"last_check": ...}}}`:
an insertion-ordered map from item id to its `last_check` string. -/
structure WCache where
  items : List (String × String)
deriving DecidableEq

/-- Cache file state for the workflow variant: `parsed` is the outcome
of `json.load` (`none` = `JSONDecodeError`, raised also by an empty
file). -/
inductive WFileState where
  | missing
  | present (parsed : Option WCache)
deriving DecidableEq

/-- `load_cache` of the workflow variant: an unreadable file raises out
of the run — there is no exception handler around `json.load`. -/
def wLoad : WFileState → Except Unit WCache
  | .missing => .ok ⟨[]⟩
  | .present (some c) => .ok c
  | .present none => .error ()

/-- `format_audio` of the workflow variant (lines 42–50). -/
def format_audio (channels : Int) : String :=
  if channels = 2 then "2.0"
  else if channels = 6 then "5.1"
  else if channels = 8 then "7.1"
  else toString (channels - 1) ++ ".1"

/-- `next((s.get("Channels") for s in item.get("MediaStreams", []) if
s.get("Type") == "Audio"), 2)`: the default `2` applies only when no
audio stream exists; an audio stream without `Channels` yields Python
`None` (which then crashes `format_audio`). -/
def wAudioChannels (streams : List WStream) : Option Int :=
  match streams.find? (fun s => s.«Type» == some "Audio") with
  | some s => s.Channels
  | none => some 2

/-- `f"{video_stream.get('Width', 1920)}x{video_stream.get('Height', 1080)}"`
where `video_stream` is the first video stream, else `{}`. -/
def wResolution (streams : List WStream) : String :=
  let v := streams.find? (fun s => s.«Type» == some "Video")
  toString ((v.bind (·.Width)).getD 1920) ++ "x" ++
    toString ((v.bind (·.Height)).getD 1080)

/-- One message of the workflow variant: the caption data the claims
inspect.  `status` is `"Nuovo"` when the id is absent from the loaded
cache, `"Aggiornamento"` otherwise — a message is sent for every
fetched item on every run. -/
structure WSend where
  id : String
  status : String
  resolution : String
  audio : String
deriving DecidableEq

/-- One iteration of the item loop of the workflow `main()`:
`error` models the `TypeError` of `format_audio(None)` when the first
audio stream has no `Channels` value. -/
def wProcessItem (cache : WCache) (item : WItem) : Except Unit WSend :=
  match wAudioChannels item.MediaStreams with
  | none => .error ()
  | some ch =>
    .ok { id := item.Id
        , status :=
            if (cache.items.map Prod.fst).contains item.Id then "Aggiornamento"
            else "Nuovo"
        , resolution := wResolution item.MediaStreams
        , audio := format_audio ch }

/-- The item loop: messages before a crashing item are already sent. -/
def wLoop (cache : WCache) : List WItem → List WSend × Bool
  | [] => ([], false)
  | i :: rest =>
    match wProcessItem cache i with
    | .error _ => ([], true)
    | .ok s =>
      let (ss, crashed) := wLoop cache rest
      (s :: ss, crashed)

/-- Observable outcome of one run of the workflow variant. -/
structure WRunResult where
  sends : List WSend
  savedCache : Option WCache
  exitCode : Nat
deriving DecidableEq

/-- `main()` of `.github/workflows/emby_notify.py` given the already
fetched item list.  `new_cache` records every fetched item id with the
current time; it is saved only if the loop finishes. -/
def wMain (fs : WFileState) (items : List WItem) (nowStr : String) : WRunResult :=
  match wLoad fs with
  | .error _ => ⟨[], none, 1⟩
  | .ok cache =>
    match wLoop cache items with
    | (sends, true) => ⟨sends, none, 1⟩
    | (sends, false) => ⟨sends, some ⟨items.map (fun i => (i.Id, nowStr))⟩, 0⟩

/-- Sortedness the code's rendering guarantees for every message:
resolution labels in String (lexicographic) order, episode pairs in
tuple order. -/
def noticeSorted : Notice → Prop
  | .newMovie _ rs => rs.Sorted pyLe
  | .updMovie _ rs => rs.Sorted pyLe
  | .newSeries _ es => es.Sorted epLe
  | .updSeries _ es => es.Sorted epLe

/-- Test fixture helper: left-to-right decimal accumulation. -/
def digitsToNatAux : List Char → Nat → Option Nat
  | [], acc => some acc
  | c :: cs, acc =>
    if c.isDigit then digitsToNatAux cs (acc * 10 + (c.toNat - 48))
    else none

/-- Test fixture: a `fromisoformat` interpretation reading a bare
unsigned decimal string as an integer timestamp. -/
def isoFix : String → Option Int := fun s =>
  match s.data with
  | [] => none
  | cs => (digitsToNatAux cs 0).map Int.ofNat

/-- Test fixture: a movie catalog record with the given name, path and
creation-date string. -/
def movieFix (name path date : String) : EmbyItem :=
  { «Type» := some "Movie", Name := some name, DateCreated := some date,
    Path := some path, MediaSources := none, SeriesName := none,
    ParentIndexNumber := none, IndexNumber := none }

/-- Test fixture: a movie record whose `DateCreated` key is absent. -/
def movieNoDateFix : EmbyItem :=
  { «Type» := some "Movie", Name := some "Bad", DateCreated := none,
    Path := some "Bad.1080p.mkv", MediaSources := none, SeriesName := none,
    ParentIndexNumber := none, IndexNumber := none }

/-- Test fixture: delivery oracle where every Telegram call succeeds. -/
def allOk : Nat → Bool := fun _ => true

/-- Test fixture: delivery oracle where every Telegram call fails. -/
def allFail : Nat → Bool := fun _ => false

/-- Test fixture: a workflow-variant catalog record with no streams. -/
def wItemFix : WItem :=
  { Id := "m1", Name := some "M", «Type» := some "Movie",
    MediaStreams := [], ParentIndexNumber := none, IndexNumber := none }

lemma mem_keys_dictSetAdd {κ α : Type} [DecidableEq κ] [DecidableEq α]
    (a k : κ) (v : α) :
    ∀ m : List (κ × List α), a ∈ (dictSetAdd m k v).map Prod.fst →
      a ∈ m.map Prod.fst ∨ a = k := by
  intro m
  induction m with
  | nil => simp [dictSetAdd]
  | cons hd tl ih =>
    obtain ⟨k', s⟩ := hd
    by_cases hk : k' = k
    · simp [dictSetAdd, hk]
      tauto
    · simp only [dictSetAdd, if_neg hk, List.map_cons, List.mem_cons]
      rintro (h | h)
      · exact Or.inl (Or.inl h)
      · rcases ih h with h' | h'
        · exact Or.inl (Or.inr h')
        · exact Or.inr h'

lemma nodup_keys_dictSetAdd {κ α : Type} [DecidableEq κ] [DecidableEq α]
    (k : κ) (v : α) :
    ∀ m : List (κ × List α), (m.map Prod.fst).Nodup →
      ((dictSetAdd m k v).map Prod.fst).Nodup := by
  intro m
  induction m with
  | nil => simp [dictSetAdd]
  | cons hd tl ih =>
    obtain ⟨k', s⟩ := hd
    by_cases hk : k' = k
    · intro h
      simpa [dictSetAdd, hk] using h
    · simp only [dictSetAdd, if_neg hk, List.map_cons, List.nodup_cons]
      rintro ⟨hnotin, hnd⟩
      refine ⟨fun hmem => ?_, ih hnd⟩
      rcases mem_keys_dictSetAdd k' k v tl hmem with h | h
      · exact hnotin h
      · exact hk h

lemma mapFind_of_mem {κ ν : Type} [DecidableEq κ] {t : κ} {s : ν} :
    ∀ {m : List (κ × ν)}, (m.map Prod.fst).Nodup → (t, s) ∈ m →
      mapFind m t = some s := by
  intro m
  induction m with
  | nil => simp
  | cons hd tl ih =>
    obtain ⟨k, v⟩ := hd
    simp only [List.map_cons, List.nodup_cons, List.mem_cons]
    rintro ⟨hnotin, hnd⟩ (h | h)
    · injection h with h1 h2
      subst h1; subst h2
      simp [mapFind]
    · have hne : k ≠ t := by
        rintro rfl
        exact hnotin (List.mem_map.mpr ⟨(k, s), h, rfl⟩)
      simp [mapFind, hne, ih hnd h]

lemma nodup_keys_buildMovieMapAux (fromiso : String → Option Int) :
    ∀ (items : List EmbyItem) (m m' : MovieMap),
      buildMovieMapAux fromiso items m = .ok m' →
      (m.map Prod.fst).Nodup → (m'.map Prod.fst).Nodup := by
  intro items
  induction items with
  | nil =>
    intro m m' h hm
    simp only [buildMovieMapAux] at h
    cases h
    exact hm
  | cons i rest ih =>
    intro m m' h hm
    simp only [buildMovieMapAux] at h
    cases he : movieEntry fromiso i with
    | error e => rw [he] at h; cases h
    | ok o =>
      rw [he] at h
      cases o with
      | none => exact ih m m' h hm
      | some trd =>
        obtain ⟨t, r, d⟩ := trd
        exact ih _ m' h (nodup_keys_dictSetAdd t (r, d) m hm)

lemma nodup_keys_buildSeriesMapAux (fromiso : String → Option Int) :
    ∀ (items : List EmbyItem) (m : SeriesMap),
      (m.map Prod.fst).Nodup →
      ((buildSeriesMapAux fromiso items m).map Prod.fst).Nodup := by
  intro items
  induction items with
  | nil => intro m hm; exact hm
  | cons i rest ih =>
    intro m hm
    simp only [buildSeriesMapAux]
    cases he : seriesEntry fromiso i with
    | none => exact ih m hm
    | some tsed =>
      obtain ⟨t, s, e, d⟩ := tsed
      exact ih _ (nodup_keys_dictSetAdd t (s, e, d) m hm)

/-- Core of the label-based suppression: when the title is already in
the old map and every in-cutoff label of the current entry already
occurs among the old entry's labels, no message is sent — regardless of
whether the underlying `(label, datetime)` sources are new. -/
lemma movieNotice1_none_of_labels_subset (cutoff : Int) (oldM : MovieMap)
    (title : Option String) (infos : List (String × Int))
    (hsome : (mapFind oldM title).isSome)
    (hsub : ∀ p ∈ infos, cutoff ≤ p.2 →
      p.1 ∈ ((mapFind oldM title).getD []).map Prod.fst) :
    movieNotice1 cutoff oldM (title, infos) = none := by
  unfold movieNotice1
  dsimp only
  split
  · rfl
  · have hadd : (List.filter
        (fun r => decide (r ∉ (List.map Prod.fst ((mapFind oldM title).getD [])).dedup))
        (List.map Prod.fst (List.filter (fun p => decide (cutoff ≤ p.2)) infos)).dedup) = [] := by
      rw [List.filter_eq_nil_iff]
      intro r hr
      rw [List.mem_dedup, List.mem_map] at hr
      obtain ⟨p, hp, rfl⟩ := hr
      rw [List.mem_filter] at hp
      have hmem := hsub p hp.1 (by simpa using hp.2)
      simp [List.mem_dedup, hmem]
    rw [hadd]
    rfl

lemma seriesNotice1_none_of_eps_subset (cutoff : Int) (oldS : SeriesMap)
    (title : String) (infos : List (Int × Int × Int))
    (hsome : (mapFind oldS title).isSome)
    (hsub : ∀ p ∈ infos, cutoff ≤ p.2.2 →
      (p.1, p.2.1) ∈ ((mapFind oldS title).getD []).map (fun q => (q.1, q.2.1))) :
    seriesNotice1 cutoff oldS (title, infos) = none := by
  unfold seriesNotice1
  dsimp only
  split
  · rfl
  · have hadd : (List.filter
        (fun e => decide
          (e ∉ (List.map (fun q => (q.1, q.2.1)) ((mapFind oldS title).getD [])).dedup))
        (List.map (fun p => (p.1, p.2.1))
          (List.filter (fun p => decide (cutoff ≤ p.2.2)) infos)).dedup) = [] := by
      rw [List.filter_eq_nil_iff]
      intro r hr
      rw [List.mem_dedup, List.mem_map] at hr
      obtain ⟨p, hp, rfl⟩ := hr
      rw [List.mem_filter] at hp
      have hmem := hsub p hp.1 (by simpa using hp.2)
      simp [List.mem_dedup, hmem]
    rw [hadd]
    rfl

/-- Diffing a movie map against itself is silent. -/
lemma movieNotices_self (cutoff : Int) (m : MovieMap)
    (hnd : (m.map Prod.fst).Nodup) : movieNotices cutoff m m = [] := by
  unfold movieNotices
  rw [List.filterMap_eq_nil_iff]
  intro e he
  obtain ⟨t, infos⟩ := e
  have hf := mapFind_of_mem hnd he
  apply movieNotice1_none_of_labels_subset
  · rw [hf]; rfl
  · intro p hp _
    rw [hf]
    exact List.mem_map.mpr ⟨p, hp, rfl⟩

/-- Diffing a series map against itself is silent. -/
lemma seriesNotices_self (cutoff : Int) (m : SeriesMap)
    (hnd : (m.map Prod.fst).Nodup) : seriesNotices cutoff m m = [] := by
  unfold seriesNotices
  rw [List.filterMap_eq_nil_iff]
  intro e he
  obtain ⟨t, infos⟩ := e
  have hf := mapFind_of_mem hnd he
  apply seriesNotice1_none_of_eps_subset
  · rw [hf]; rfl
  · intro p hp _
    rw [hf]
    exact List.mem_map.mpr ⟨p, hp, rfl⟩

lemma pyStrLtB_asymm : ∀ as bs : List Char,
    pyStrLtB as bs = true → pyStrLtB bs as = false := by
  intro as
  induction as with
  | nil =>
    intro bs h
    cases bs with
    | nil => simp [pyStrLtB] at h
    | cons b bs => simp [pyStrLtB]
  | cons a as ih =>
    intro bs h
    cases bs with
    | nil => simp [pyStrLtB] at h
    | cons b bs =>
      simp only [pyStrLtB] at h ⊢
      by_cases hab : a < b
      · rw [if_neg (lt_asymm hab), if_pos hab]
      · rw [if_neg hab] at h
        by_cases hba : b < a
        · rw [if_pos hba] at h
          cases h
        · rw [if_neg hba] at h
          rw [if_neg hba, if_neg hab]
          exact ih bs h

lemma pyStrLtB_false_trans : ∀ (cs bs as : List Char),
    pyStrLtB cs bs = false → pyStrLtB bs as = false → pyStrLtB cs as = false := by
  intro cs
  induction cs with
  | nil =>
    intro bs as h1 h2
    cases bs with
    | nil =>
      cases as with
      | nil => rfl
      | cons x xs => simp [pyStrLtB] at h2
    | cons y ys => simp [pyStrLtB] at h1
  | cons z zs ih =>
    intro bs as h1 h2
    cases as with
    | nil => rfl
    | cons x xs =>
      cases bs with
      | nil => simp [pyStrLtB] at h2
      | cons y ys =>
        simp only [pyStrLtB] at h1 h2 ⊢
        by_cases hzy : z < y
        · rw [if_pos hzy] at h1
          cases h1
        · rw [if_neg hzy] at h1
          by_cases hyx : y < x
          · rw [if_pos hyx] at h2
            cases h2
          · rw [if_neg hyx] at h2
            have hyz : y ≤ z := le_of_not_lt hzy
            have hxy : x ≤ y := le_of_not_lt hyx
            have hzx : ¬ z < x := not_lt_of_le (hxy.trans hyz)
            rw [if_neg hzx]
            by_cases hxz : x < z
            · rw [if_pos hxz]
            · rw [if_neg hxz]
              have hxzeq : x = z := le_antisymm (hxy.trans hyz)
                (le_of_not_lt hxz)
              have hyzeq : y = z := le_antisymm hyz (hxzeq ▸ hxy)
              rw [if_neg (by rw [hyzeq]; exact lt_irrefl z)] at h1
              rw [if_neg (by rw [hxzeq, hyzeq]; exact lt_irrefl z)] at h2
              exact ih ys xs h1 h2

instance pyLe.isTotal : IsTotal String pyLe where
  total a b := by
    by_cases h : pyStrLtB b.data a.data = true
    · exact Or.inr (pyStrLtB_asymm _ _ h)
    · exact Or.inl (by simpa using h)

instance pyLe.isTrans : IsTrans String pyLe where
  trans a b c hab hbc := pyStrLtB_false_trans c.data b.data a.data hbc hab

/-- A movie-map entry whose message is emitted has a sorted label list;
likewise for series entries. -/
lemma noticeSorted_of_movieNotice1 (cutoff : Int) (oldM : MovieMap)
    (e : Option String × List (String × Int)) (n : Notice)
    (h : movieNotice1 cutoff oldM e = some n) : noticeSorted n := by
  obtain ⟨t, infos⟩ := e
  unfold movieNotice1 at h
  dsimp only at h
  split at h
  · cases h
  · split at h
    · split at h
      · cases h
      · cases h
        exact List.sorted_insertionSort _ _
    · cases h
      exact List.sorted_insertionSort _ _

lemma noticeSorted_of_seriesNotice1 (cutoff : Int) (oldS : SeriesMap)
    (e : String × List (Int × Int × Int)) (n : Notice)
    (h : seriesNotice1 cutoff oldS e = some n) : noticeSorted n := by
  obtain ⟨t, infos⟩ := e
  unfold seriesNotice1 at h
  dsimp only at h
  split at h
  · cases h
  · split at h
    · split at h
      · cases h
      · cases h
        exact List.sorted_insertionSort _ _
    · cases h
      exact List.sorted_insertionSort _ _

/-- C7 (counterexample): when the Emby catalog fetch raises, `process`
catches the exception, sends nothing and saves nothing — but returns
normally, so the process exits 0, contradicting the claimed non-zero
exit status; a normal zero-event run also exits 0. -/
theorem C7_counterexample :
    (process isoFix .missing (Except.error ()) 5 allOk).exitCode = 0 ∧
      (process isoFix .missing (Except.error ()) 5 allOk).notices = [] ∧
      (process isoFix .missing (Except.error ()) 5 allOk).savedCache = none ∧
      (process isoFix .missing (Except.ok []) 5 allOk).exitCode = 0 := by
  decide

/-- C7 (amended): a failed catalog fetch aborts the run with no
notifications and no snapshot update, but the exception is caught and
the run exits 0 — indistinguishable by exit status from a normal run. -/
theorem C7_amended (fromiso : String → Option Int) (fs : FileState)
    (now : Int) (d : Nat → Bool) :
    process fromiso fs (Except.error ()) now d =
      ⟨[], [], none, 0⟩ := rfl

/-- C8 (counterexample): in the workflow variant, `load_cache` has no
handler around `json.load`, so malformed (or empty) cache content
raises and the run dies with a non-zero status instead of starting from
an empty snapshot. -/
theorem C8_counterexample :
    wLoad (.present none) = .error () ∧
      (wMain (.present none) [wItemFix] "t").exitCode = 1 ∧
      (wMain (.present none) [wItemFix] "t").sends = [] :=
  ⟨rfl, rfl, rfl⟩

/-- C8 (amended): the scripts variant's `load_cache` is total exactly as
claimed — missing file, blank file, and malformed content all load as
the empty snapshot — but the workflow variant crashes on malformed
content. -/
theorem C8_amended (p : Option (List EmbyItem)) :
    load_cache .missing = [] ∧ load_cache (.present true p) = [] ∧
      load_cache (.present false none) = [] :=
  ⟨rfl, rfl, rfl⟩

/-- C9 (counterexample): `format_audio` does not clamp degenerate
channel counts: one channel yields the label `"0.1"`, not the claimed
`"1.1"`. -/
theorem C9_counterexample :
    format_audio 1 = "0.1" ∧ format_audio 1 ≠ "1.1" := by
  decide

/-- C9 (amended): the special cases 2/6/8 map to 2.0/5.1/7.1 and every
other channel count n — including degenerate ones below 2, with no
clamping — maps to `"{n-1}.1"` (so 1 gives "0.1" and 0 gives "-1.1");
the stereo default of 2 applies only when no audio stream exists. -/
theorem C9_amended :
    format_audio 2 = "2.0" ∧ format_audio 6 = "5.1" ∧
      format_audio 8 = "7.1" ∧ format_audio 1 = "0.1" ∧
      format_audio 0 = "-1.1" ∧
      (∀ n : Int, n ≠ 2 → n ≠ 6 → n ≠ 8 →
        format_audio n = toString (n - 1) ++ ".1") ∧
      (∀ ss : List WStream,
        ss.find? (fun s => s.«Type» == some "Audio") = none →
        wAudioChannels ss = some 2) := by
  refine ⟨by decide, by decide, by decide, by decide, by decide, ?_, ?_⟩
  · intro n h2 h6 h8
    simp [format_audio, h2, h6, h8]
  · intro ss h
    simp [wAudioChannels, h]

/-- C9 (witness): the amended rule evaluated at 4 channels and at an
empty stream list. -/
theorem C9_witness :
    format_audio 4 = "3.1" ∧ wAudioChannels [] = some 2 :=
  ⟨(C9_amended.2.2.2.2.2.1 4 (by decide) (by decide) (by decide)).trans
      (by decide),
    C9_amended.2.2.2.2.2.2 [] rfl⟩

/-- C1 (counterexample): scenario 4 fails on the code.  A new movie is
notified, the (only) Telegram delivery fails, yet `save_cache` persists
the full fetched catalog, so the next run — same catalog, cache equal
to what was saved — emits nothing: the failed event is lost, not
re-emitted. -/
theorem C1_counterexample :
    (process isoFix .missing
        (Except.ok [movieFix "M1" "Film.1080p.mkv" "5"]) 5 allFail).notices =
      [Notice.newMovie (some "M1") ["1080p"]] ∧
    (process isoFix .missing
        (Except.ok [movieFix "M1" "Film.1080p.mkv" "5"]) 5 allFail).deliveries =
      [false] ∧
    (process isoFix .missing
        (Except.ok [movieFix "M1" "Film.1080p.mkv" "5"]) 5 allFail).savedCache =
      some [movieFix "M1" "Film.1080p.mkv" "5"] ∧
    (process isoFix (.present false (some [movieFix "M1" "Film.1080p.mkv" "5"]))
        (Except.ok [movieFix "M1" "Film.1080p.mkv" "5"]) 5 allOk).notices = [] := by
  decide

/-- C1 (amended): delivery failure indeed never aborts processing — the
delivery outcome cannot influence the run at all: the emitted events
are identical under any delivery oracle, and every run that completes
saves the entire fetched catalog as the snapshot, so failed events'
sources ARE recorded and never retried. -/
theorem C1_amended (fromiso : String → Option Int) (fs : FileState)
    (items : List EmbyItem) (now : Int) (d1 d2 : Nat → Bool)
    (h : (process fromiso fs (Except.ok items) now d1).exitCode = 0) :
    (process fromiso fs (Except.ok items) now d1).savedCache = some items ∧
      (process fromiso fs (Except.ok items) now d1).notices =
        (process fromiso fs (Except.ok items) now d2).notices := by
  unfold process at h ⊢
  cases h1 : build_movie_map fromiso (load_cache fs) <;>
    cases h2 : build_movie_map fromiso items <;>
      simp_all

/-- C1 (witness): the amended statement at a concrete run in which the
only delivery fails. -/
theorem C1_witness :
    (process isoFix .missing
        (Except.ok [movieFix "M2" "Film.720p.mkv" "7"]) 7 allFail).savedCache =
      some [movieFix "M2" "Film.720p.mkv" "7"] ∧
    (process isoFix .missing
        (Except.ok [movieFix "M2" "Film.720p.mkv" "7"]) 7 allFail).notices =
      (process isoFix .missing
        (Except.ok [movieFix "M2" "Film.720p.mkv" "7"]) 7 allOk).notices :=
  C1_amended isoFix .missing [movieFix "M2" "Film.720p.mkv" "7"] 7 allFail allOk
    (by decide)

/-- C5 (counterexample): the workflow variant has no diff at all — an
item already present in the loaded cache (an unchanged item) is
re-notified on every run, merely labelled "Aggiornamento". -/
theorem C5_counterexample :
    (wMain (.present (some ⟨[("m1", "t0")]⟩)) [wItemFix] "t1").sends =
      [⟨"m1", "Aggiornamento", "1920x1080", "2.0"⟩] ∧
    (wMain (.present (some ⟨[("m1", "t0")]⟩)) [wItemFix] "t1").sends ≠ [] := by
  decide

/-- C5 (amended): the scripts variant satisfies the claim — whenever the
loaded cache equals the fetched catalog (`C == S`, which also covers
shrunk source sets, since diffing any entry against itself adds
nothing), the run emits no events — but the workflow variant sends one
message per fetched item on every run regardless of its cache. -/
theorem C5_amended (fromiso : String → Option Int) (fs : FileState)
    (items : List EmbyItem) (now : Int) (d : Nat → Bool)
    (h : load_cache fs = items) :
    (process fromiso fs (Except.ok items) now d).notices = [] := by
  unfold process
  rw [h]
  cases hb : build_movie_map fromiso items with
  | error e => simp [hb]
  | ok m =>
    have hnd : (m.map Prod.fst).Nodup :=
      nodup_keys_buildMovieMapAux fromiso items [] m hb (by simp)
    have hndS : ((build_series_map fromiso items).map Prod.fst).Nodup :=
      nodup_keys_buildSeriesMapAux fromiso items [] (by simp)
    simp only [hb]
    rw [movieNotices_self _ _ hnd, seriesNotices_self _ _ hndS]
    rfl

/-- C5 (witness): a second run over an unchanged one-movie catalog whose
cache was saved by the previous run emits nothing. -/
theorem C5_witness :
    (process isoFix (.present false (some [movieFix "M3" "Film.480p.mkv" "9"]))
        (Except.ok [movieFix "M3" "Film.480p.mkv" "9"]) 9 allOk).notices = [] :=
  C5_amended isoFix (.present false (some [movieFix "M3" "Film.480p.mkv" "9"]))
    [movieFix "M3" "Film.480p.mkv" "9"] 9 allOk rfl

/-- C2 (counterexample): the diff is keyed by resolution label, not by
source identity.  The previous snapshot has one 1080p encode of "M"
(datetime 1); the catalog adds a second, distinct 1080p encode
(datetime 99999, within the cutoff) — visible as a new `(label, time)`
pair in the built map — yet no event is emitted, because the label set
difference is empty. -/
theorem C2_counterexample :
    build_movie_map isoFix [movieFix "M" "a.1080p.x" "1"] =
      Except.ok [(some "M", [("1080p", 1)])] ∧
    build_movie_map isoFix
        [movieFix "M" "a.1080p.x" "1", movieFix "M" "b.1080p.y" "99999"] =
      Except.ok [(some "M", [("1080p", 1), ("1080p", 99999)])] ∧
    (process isoFix (.present false (some [movieFix "M" "a.1080p.x" "1"]))
        (Except.ok [movieFix "M" "a.1080p.x" "1", movieFix "M" "b.1080p.y" "99999"])
        99999 allOk).notices = [] :=
  ⟨rfl, rfl, rfl⟩

/-- C2 (amended): additions are computed as a set difference of
resolution labels per title; whenever every in-cutoff label of the
current entry already occurs among the old entry's labels, no event is
emitted — even when the current entry holds distinct new sources that
happen to share a label with old ones. -/
theorem C2_amended (cutoff : Int) (oldM : MovieMap) (title : Option String)
    (infos : List (String × Int))
    (hsome : (mapFind oldM title).isSome)
    (hsub : ∀ p ∈ infos, cutoff ≤ p.2 →
      ∃ q ∈ (mapFind oldM title).getD [], q.1 = p.1) :
    movieNotice1 cutoff oldM (title, infos) = none :=
  movieNotice1_none_of_labels_subset cutoff oldM title infos hsome
    (fun p hp hc => by
      obtain ⟨q, hq, he⟩ := hsub p hp hc
      exact List.mem_map.mpr ⟨q, hq, he⟩)

/-- C2 (witness): the amended statement at the counterexample's maps. -/
theorem C2_witness :
    movieNotice1 13599 [(some "M", [("1080p", 1)])]
      (some "M", [("1080p", 1), ("1080p", 99999)]) = none :=
  C2_amended 13599 [(some "M", [("1080p", 1)])] (some "M")
    [("1080p", 1), ("1080p", 99999)] (by decide) (by decide)

/-- C3 (counterexample): a movie absent from the snapshot with one
in-cutoff source (720p) and one stale source (1080p, present in the
built map) is announced with only the in-cutoff label, not with all of
its current sources as the claim states. -/
theorem C3_counterexample :
    build_movie_map isoFix
        [movieFix "M" "a.720p.x" "99999", movieFix "M" "b.1080p.y" "1"] =
      Except.ok [(some "M", [("720p", 99999), ("1080p", 1)])] ∧
    (process isoFix .missing
        (Except.ok [movieFix "M" "a.720p.x" "99999", movieFix "M" "b.1080p.y" "1"])
        99999 allOk).notices = [Notice.newMovie (some "M") ["720p"]] ∧
    ("1080p" : String) ∉ ["720p"] :=
  ⟨rfl, rfl, by decide⟩

/-- C3 (amended): for a title absent from the old map, the emitted
event's labels are exactly the labels of the sources within the cutoff
— not all current sources; and the cutoff is never unset: `process`
always uses `now - oneDay`. -/
theorem C3_amended (cutoff : Int) (oldM : MovieMap) (title : Option String)
    (infos : List (String × Int)) (rs : List String)
    (hnone : mapFind oldM title = none)
    (h : movieNotice1 cutoff oldM (title, infos) =
      some (Notice.newMovie title rs)) :
    ∀ r : String, r ∈ rs ↔ ∃ p ∈ infos, p.1 = r ∧ cutoff ≤ p.2 := by
  unfold movieNotice1 at h
  dsimp only at h
  rw [hnone] at h
  simp only [Option.isSome_none, Bool.false_eq_true, if_false] at h
  split at h
  · cases h
  · simp only [Option.some.injEq, Notice.newMovie.injEq] at h
    obtain ⟨-, hrs⟩ := h
    subst hrs
    intro r
    unfold sortStr
    rw [List.mem_insertionSort, List.mem_dedup]
    simp only [List.mem_map, List.mem_filter, decide_eq_true_eq]
    constructor
    · rintro ⟨p, ⟨hp, hc⟩, rfl⟩
      exact ⟨p, hp, rfl, hc⟩
    · rintro ⟨p, hp, rfl, hc⟩
      exact ⟨p, ⟨hp, hc⟩, rfl⟩

/-- C3 (witness): the amended characterisation at the counterexample's
new-movie event, instantiated at the label that was kept. -/
theorem C3_witness :
    ("720p" : String) ∈ ["720p"] ↔
      ∃ p ∈ [(("720p" : String), (99999 : Int)), ("1080p", 1)],
        p.1 = "720p" ∧ (13599 : Int) ≤ p.2 :=
  C3_amended 13599 [] (some "M") [("720p", 99999), ("1080p", 1)] ["720p"]
    rfl (by decide) "720p"

/-- C4 (counterexample): the previous snapshot has "M" at 1080p; the
catalog is a strict superset (1080p and 2160p), but nothing is within
the cutoff, so no `UpdatedSources` event at all is emitted — the claim
has no recency condition and demands exactly one event with added
source 2160p. -/
theorem C4_counterexample :
    build_movie_map isoFix [movieFix "M" "a.1080p.x" "1"] =
      Except.ok [(some "M", [("1080p", 1)])] ∧
    build_movie_map isoFix
        [movieFix "M" "a.1080p.x" "1", movieFix "M" "b.2160p.y" "2"] =
      Except.ok [(some "M", [("1080p", 1), ("2160p", 2)])] ∧
    (process isoFix (.present false (some [movieFix "M" "a.1080p.x" "1"]))
        (Except.ok [movieFix "M" "a.1080p.x" "1", movieFix "M" "b.2160p.y" "2"])
        10000000 allOk).notices = [] :=
  ⟨rfl, rfl, rfl⟩

/-- C4 (amended): for a title present in the old map, an emitted update
event's labels are exactly the in-cutoff current labels that do not
occur among the old entry's labels — the set difference is taken on
labels and only over sources within the cutoff. -/
theorem C4_amended (cutoff : Int) (oldM : MovieMap) (title : Option String)
    (infos olds : List (String × Int)) (rs : List String)
    (hfind : mapFind oldM title = some olds)
    (h : movieNotice1 cutoff oldM (title, infos) =
      some (Notice.updMovie title rs)) :
    ∀ r : String, r ∈ rs ↔
      ((∃ p ∈ infos, p.1 = r ∧ cutoff ≤ p.2) ∧ ∀ q ∈ olds, q.1 ≠ r) := by
  unfold movieNotice1 at h
  dsimp only at h
  rw [hfind] at h
  simp only [Option.isSome_some, if_true, Option.getD_some] at h
  split at h
  · cases h
  · split at h
    · cases h
    · simp only [Option.some.injEq, Notice.updMovie.injEq] at h
      obtain ⟨-, hrs⟩ := h
      subst hrs
      intro r
      unfold sortStr
      rw [List.mem_insertionSort, List.mem_filter]
      simp only [List.mem_dedup, List.mem_map, List.mem_filter,
        decide_eq_true_eq, decide_not, Bool.not_eq_true', decide_eq_false_iff_not]
      constructor
      · rintro ⟨⟨p, ⟨hp, hc⟩, rfl⟩, hnot⟩
        exact ⟨⟨p, hp, rfl, hc⟩, fun q hq hqr => hnot ⟨q, hq, hqr⟩⟩
      · rintro ⟨⟨p, hp, rfl, hc⟩, hnot⟩
        exact ⟨⟨p, ⟨hp, hc⟩, rfl⟩, fun hex => by
          obtain ⟨q, hq, hqr⟩ := hex
          exact hnot q hq hqr⟩

/-- C4 (witness): the amended characterisation at a concrete update
event, instantiated at the freshly added label. -/
theorem C4_witness :
    ("2160p" : String) ∈ ["2160p"] ↔
      ((∃ p ∈ [(("1080p" : String), (99999 : Int)), ("2160p", 99999)],
          p.1 = "2160p" ∧ (13599 : Int) ≤ p.2) ∧
        ∀ q ∈ [(("1080p" : String), (1 : Int))], q.1 ≠ "2160p") :=
  C4_amended 13599 [(some "M", [("1080p", 1)])] (some "M")
    [("1080p", 99999), ("2160p", 99999)] [("1080p", 1)] ["2160p"]
    rfl (by decide) "2160p"

/-- C6 (counterexample): both sources are in-cutoff, so both labels are
listed, but `sorted` compares strings lexicographically: "2160p" is
listed before "720p", violating ascending numeric rank (720 < 2160). -/
theorem C6_counterexample :
    (process isoFix .missing
        (Except.ok [movieFix "M" "a.2160p.x" "5", movieFix "M" "b.720p.y" "5"])
        5 allOk).notices = [Notice.newMovie (some "M") ["2160p", "720p"]] ∧
    (["2160p", "720p"] : List String) ≠ ["720p", "2160p"] :=
  ⟨rfl, by decide⟩

/-- C6 (amended): the labels inside every emitted event are sorted in
Python's lexicographic string order (code-point comparison — so
"2160p" precedes "720p", and "Unknown" still sorts after digit-led
labels), episode pairs in tuple order; all movie events precede all
series events, each group in first-appearance order of its titles. -/
theorem C6_amended (fromiso : String → Option Int) (fs : FileState)
    (fetched : Except Unit (List EmbyItem)) (now : Int) (d : Nat → Bool)
    (n : Notice) (h : n ∈ (process fromiso fs fetched now d).notices) :
    noticeSorted n := by
  unfold process at h
  cases fetched with
  | error e => simp at h
  | ok items =>
    dsimp only at h
    cases h1 : build_movie_map fromiso (load_cache fs) <;>
      cases h2 : build_movie_map fromiso items <;>
        simp only [h1, h2] at h
    case error.error => simp at h
    case error.ok => simp at h
    case ok.error => simp at h
    case ok.ok oldM newM =>
      rcases List.mem_append.mp h with hm | hs
      · obtain ⟨e, he, hn⟩ := List.mem_filterMap.mp hm
        exact noticeSorted_of_movieNotice1 _ _ e n hn
      · obtain ⟨e, he, hn⟩ := List.mem_filterMap.mp hs
        exact noticeSorted_of_seriesNotice1 _ _ e n hn

/-- C6 (witness): the sortedness guarantee at the counterexample run's
event. -/
theorem C6_witness :
    noticeSorted (Notice.newMovie (some "M") ["2160p", "720p"]) :=
  C6_amended isoFix .missing
    (Except.ok [movieFix "M" "a.2160p.x" "5", movieFix "M" "b.720p.y" "5"])
    5 allOk (Notice.newMovie (some "M") ["2160p", "720p"]) (by decide)

lemma buildMovieMapAux_skip (fromiso : String → Option Int) (i : EmbyItem)
    (hskip : movieEntry fromiso i = .ok none) :
    ∀ (pre post : List EmbyItem) (m : MovieMap),
      buildMovieMapAux fromiso (pre ++ i :: post) m =
        buildMovieMapAux fromiso (pre ++ post) m := by
  intro pre
  induction pre with
  | nil =>
    intro post m
    simp only [List.nil_append, buildMovieMapAux, hskip]
  | cons j rest ih =>
    intro post m
    simp only [List.cons_append, buildMovieMapAux]
    cases movieEntry fromiso j with
    | error e => rfl
    | ok o =>
      cases o with
      | none => exact ih post m
      | some trd => exact ih post _

lemma buildSeriesMapAux_skip (fromiso : String → Option Int) (i : EmbyItem)
    (hskip : seriesEntry fromiso i = none) :
    ∀ (pre post : List EmbyItem) (m : SeriesMap),
      buildSeriesMapAux fromiso (pre ++ i :: post) m =
        buildSeriesMapAux fromiso (pre ++ post) m := by
  intro pre
  induction pre with
  | nil =>
    intro post m
    simp only [List.nil_append, buildSeriesMapAux, hskip]
  | cons j rest ih =>
    intro post m
    simp only [List.cons_append, buildSeriesMapAux]
    cases seriesEntry fromiso j with
    | none => exact ih post m
    | some tsed => exact ih post _

/-- C10: a record whose `DateCreated` is absent or fails to parse, and
an episode record missing its series name, season number or episode
number, is silently dropped from both built maps — on whichever side
(previous snapshot or current catalog) it occurs — and therefore can
never contribute to an emitted event. -/
theorem C10_confirmed (fromiso : String → Option Int)
    (pre post : List EmbyItem) (i : EmbyItem)
    (h : i.DateCreated.bind (parse_emby_date fromiso) = none ∨
      (i.«Type» = some "Episode" ∧
        (i.SeriesName = none ∨ i.ParentIndexNumber = none ∨
          i.IndexNumber = none))) :
    build_movie_map fromiso (pre ++ i :: post) =
        build_movie_map fromiso (pre ++ post) ∧
      build_series_map fromiso (pre ++ i :: post) =
        build_series_map fromiso (pre ++ post) ∧
      ∀ (fs : FileState) (now : Int) (d : Nat → Bool),
        (process fromiso fs (Except.ok (pre ++ i :: post)) now d).notices =
          (process fromiso fs (Except.ok (pre ++ post)) now d).notices := by
  have hm : movieEntry fromiso i = .ok none := by
    unfold movieEntry
    by_cases ht : i.«Type» = some "Movie"
    · rw [if_neg (by simp [ht])]
      rcases h with hd | ⟨he, _⟩
      · cases hdc : i.DateCreated with
        | none => rfl
        | some ds =>
          rw [hdc] at hd
          have hd' : parse_emby_date fromiso ds = none := hd
          dsimp only
          rw [hd']
      · rw [ht] at he
        simp at he
    · rw [if_pos ht]
  have hs : seriesEntry fromiso i = none := by
    unfold seriesEntry
    by_cases ht : i.«Type» = some "Episode"
    · rw [if_neg (by simp [ht])]
      rcases h with hd | ⟨-, hfields⟩
      · cases hdc : i.DateCreated with
        | none => rfl
        | some ds =>
          rw [hdc] at hd
          have hd' : parse_emby_date fromiso ds = none := hd
          dsimp only
          rw [hd']
      · cases hdc : i.DateCreated with
        | none => rfl
        | some ds =>
          dsimp only
          cases hp : parse_emby_date fromiso ds with
          | none => rfl
          | some dt =>
            dsimp only
            cases hsn : i.SeriesName <;> cases hpin : i.ParentIndexNumber <;>
              cases hin : i.IndexNumber <;>
                first
                  | rfl
                  | (exfalso
                     rcases hfields with hf | hf | hf <;>
                       simp [hsn, hpin, hin] at hf)
    · rw [if_pos ht]
  have hM : build_movie_map fromiso (pre ++ i :: post) =
      build_movie_map fromiso (pre ++ post) :=
    buildMovieMapAux_skip fromiso i hm pre post []
  have hS : build_series_map fromiso (pre ++ i :: post) =
      build_series_map fromiso (pre ++ post) :=
    buildSeriesMapAux_skip fromiso i hs pre post []
  refine ⟨hM, hS, ?_⟩
  intro fs now d
  unfold process
  dsimp only
  rw [hM, hS]
  cases build_movie_map fromiso (load_cache fs) <;>
    cases build_movie_map fromiso (pre ++ post) <;> rfl

/-- C10 (witness): the exclusion evaluated with a dateless movie record
inserted ahead of a normal one. -/
theorem C10_witness :
    build_movie_map isoFix
        ([] ++ movieNoDateFix :: [movieFix "M" "a.1080p.x" "5"]) =
      build_movie_map isoFix ([] ++ [movieFix "M" "a.1080p.x" "5"]) ∧
    build_series_map isoFix
        ([] ++ movieNoDateFix :: [movieFix "M" "a.1080p.x" "5"]) =
      build_series_map isoFix ([] ++ [movieFix "M" "a.1080p.x" "5"]) :=
  ⟨(C10_confirmed isoFix [] [movieFix "M" "a.1080p.x" "5"] movieNoDateFix
      (Or.inl rfl)).1,
    (C10_confirmed isoFix [] [movieFix "M" "a.1080p.x" "5"] movieNoDateFix
      (Or.inl rfl)).2.1⟩
